import Mathlib

/-!
Verification of the crypto technical-analysis bot (crypto_analysis.py).

Shallow embedding conventions:
* Python strings are modelled as `List Char`.
* Python floats are modelled as exact rationals (`ℚ`); the decimal
  formatting `f"\x7bx:.8f\x7d"` is modelled as banker's rounding to the
  given number of decimal places, applied to the rational value.
* Fallible library calls (HTTP requests, `json.loads`) are modelled by
  explicit outcome values / `Option`; a raised exception that the source
  catches corresponds to the `none` / error constructor.
* `json.loads` is modelled by an executable recursive-descent parser over
  `List Char` for standard JSON (objects, arrays, strings with escapes,
  numbers, literals); the non-standard `NaN`/`Infinity` extensions are
  outside the model.  Parsed objects are association lists in source
  order.
-/

set_option maxRecDepth 4000

namespace CryptoBot

/-- Left brace character, written by code point to keep string literals plain. -/
def lbrace : Char := Char.ofNat 123

/-- Right brace character. -/
def rbrace : Char := Char.ofNat 125

/-- Backtick character. -/
def btick : Char := Char.ofNat 96

/-- Boolean prefix test on character lists (model of Python `str.startswith`
restricted to what the embedding needs). -/
def isPfxOf : List Char → List Char → Bool
  | [], _ => true
  | _ :: _, [] => false
  | a :: as, b :: bs => a == b && isPfxOf as bs

/-- Model of Python `str.find`: index of the first occurrence of `pat` in `s`,
`none` when absent (Python returns `-1`). -/
def findSub (pat : List Char) : List Char → Option Nat
  | [] => if pat.isEmpty then some 0 else none
  | c :: rest =>
    if isPfxOf pat (c :: rest) then some 0
    else (findSub pat rest).map (· + 1)

/-- Containment test derived from `findSub` (Python `pat in s`). -/
def containsSub (pat s : List Char) : Bool := (findSub pat s).isSome

/-- Whitespace set of Python `str.strip()` (ASCII part). -/
def isPyWs (c : Char) : Bool :=
  c == ' ' || c == '\t' || c == '\n' || c == '\r' || c == Char.ofNat 11 || c == Char.ofNat 12

/-- Drop trailing whitespace. -/
def dropTrailWs (s : List Char) : List Char :=
  (s.reverse.dropWhile isPyWs).reverse

/-- Model of Python `str.strip()`. -/
def pyStrip (s : List Char) : List Char :=
  dropTrailWs (s.dropWhile isPyWs)

/-- Whitespace characters skipped by Python's JSON parser. -/
def isJsonWs (c : Char) : Bool :=
  c == ' ' || c == '\t' || c == '\n' || c == '\r'

/-- Skip JSON whitespace. -/
def skipWs (s : List Char) : List Char := s.dropWhile isJsonWs

/-- JSON values as produced by `json.loads`.  Numbers are exact rationals
(int/float distinction of Python collapses under Python numeric equality);
objects keep their members in source order. -/
inductive Json where
  | null : Json
  | bool (b : Bool) : Json
  | num (q : ℚ) : Json
  | str (s : List Char) : Json
  | arr (elems : List Json) : Json
  | obj (fields : List (List Char × Json)) : Json

/-- Python truthiness of a parsed JSON value (`if json_data:`). -/
def jsonTruthy : Json → Bool
  | .null => false
  | .bool b => b
  | .num q => decide (q ≠ 0)
  | .str s => !s.isEmpty
  | .arr l => !l.isEmpty
  | .obj l => !l.isEmpty

/-- Hex digit value. -/
def hexVal (c : Char) : Option Nat :=
  if c.isDigit then some (c.toNat - 48)
  else if 97 ≤ c.toNat ∧ c.toNat ≤ 102 then some (c.toNat - 87)
  else if 65 ≤ c.toNat ∧ c.toNat ≤ 70 then some (c.toNat - 55)
  else none

/-- String-body parser: consumes characters after the opening quote up to the
closing quote, decoding escapes; rejects raw control characters (strict mode
of `json.loads`).  Fuel-driven; the fuel passed by callers always suffices. -/
def parseStringRest : Nat → List Char → Option (List Char × List Char)
  | 0, _ => none
  | _ + 1, [] => none
  | fuel + 1, c :: rest =>
    if c == '"' then some ([], rest)
    else if c == '\\' then
      match rest with
      | [] => none
      | e :: rest2 =>
        let dec (d : Char) (r : List Char) : Option (List Char × List Char) :=
          (parseStringRest fuel r).map (fun p => (d :: p.1, p.2))
        if e == '"' then dec '"' rest2
        else if e == '\\' then dec '\\' rest2
        else if e == '/' then dec '/' rest2
        else if e == 'b' then dec (Char.ofNat 8) rest2
        else if e == 'f' then dec (Char.ofNat 12) rest2
        else if e == 'n' then dec '\n' rest2
        else if e == 'r' then dec '\r' rest2
        else if e == 't' then dec '\t' rest2
        else if e == 'u' then
          match rest2 with
          | h1 :: h2 :: h3 :: h4 :: rest3 =>
            match hexVal h1, hexVal h2, hexVal h3, hexVal h4 with
            | some a, some b, some cc, some d =>
              dec (Char.ofNat (((a * 16 + b) * 16 + cc) * 16 + d)) rest3
            | _, _, _, _ => none
          | _ => none
        else none
    else if c.toNat < 32 then none
    else (parseStringRest fuel rest).map (fun p => (c :: p.1, p.2))

/-- Digit run to a natural number. -/
def digitsToNat (ds : List Char) : Nat :=
  ds.foldl (fun n c => n * 10 + (c.toNat - 48)) 0

/-- Number parser following the JSON grammar
`-?(0|[1-9][0-9]*)(.[0-9]+)?([eE][+-]?[0-9]+)?`, yielding the exact rational
value. -/
def parseNumber (s : List Char) : Option (ℚ × List Char) :=
  let signFrac : Bool × List Char :=
    match s with
    | c :: r => if c == '-' then (true, r) else (false, s)
    | [] => (false, s)
  let neg := signFrac.1
  let s1 := signFrac.2
  match s1 with
  | [] => none
  | c :: _ =>
    if !c.isDigit then none
    else
      let ip := s1.takeWhile (·.isDigit)
      let s2 := s1.dropWhile (·.isDigit)
      if 1 < ip.length ∧ ip.headI = '0' then none
      else
        let intPart : ℚ := (digitsToNat ip : ℚ)
        let fracStep : Option (ℚ × List Char) :=
          match s2 with
          | '.' :: s3 =>
            let fs := s3.takeWhile (·.isDigit)
            let s4 := s3.dropWhile (·.isDigit)
            if fs.isEmpty then none
            else some (intPart + (digitsToNat fs : ℚ) / (10 : ℚ) ^ fs.length, s4)
          | _ => some (intPart, s2)
        match fracStep with
        | none => none
        | some (base, s5) =>
          let expStep : Option (ℚ × List Char) :=
            match s5 with
            | c2 :: s6 =>
              if c2 == 'e' ∨ c2 == 'E' then
                let signExp : Int × List Char :=
                  match s6 with
                  | d :: s7 =>
                    if d == '+' then (1, s7)
                    else if d == '-' then (-1, s7) else (1, s6)
                  | [] => (1, s6)
                let es := signExp.2.takeWhile (·.isDigit)
                let s8 := signExp.2.dropWhile (·.isDigit)
                if es.isEmpty then none
                else some (base * (10 : ℚ) ^ (signExp.1 * (digitsToNat es : Int)), s8)
              else some (base, s5)
            | [] => some (base, s5)
          match expStep with
          | none => none
          | some (v, rest) => some (if neg then -v else v, rest)

/-- Work items of the JSON parser: a value, the members of an object after the
opening brace, or the elements of an array after the opening bracket. -/
inductive PTask where
  | value (s : List Char) : PTask
  | members (s : List Char) (acc : List (List Char × Json)) : PTask
  | elems (s : List Char) (acc : List Json) : PTask

/-- Fuel-driven recursive-descent JSON parser (model of the grammar accepted
by `json.loads` on standard JSON). -/
def parseF : Nat → PTask → Option (Json × List Char)
  | 0, _ => none
  | fuel + 1, .value s =>
    match skipWs s with
    | [] => none
    | c :: rest =>
      if c == '"' then (parseStringRest (fuel + 1) rest).map (fun p => (.str p.1, p.2))
      else if c == lbrace then
        match skipWs rest with
        | c2 :: rest2 =>
          if c2 == rbrace then some (.obj [], rest2)
          else parseF fuel (.members (skipWs rest) [])
        | [] => none
      else if c == '[' then
        match skipWs rest with
        | c2 :: rest2 =>
          if c2 == ']' then some (.arr [], rest2)
          else parseF fuel (.elems (skipWs rest) [])
        | [] => none
      else if c == 't' then
        match rest with
        | 'r' :: 'u' :: 'e' :: r => some (.bool true, r)
        | _ => none
      else if c == 'f' then
        match rest with
        | 'a' :: 'l' :: 's' :: 'e' :: r => some (.bool false, r)
        | _ => none
      else if c == 'n' then
        match rest with
        | 'u' :: 'l' :: 'l' :: r => some (.null, r)
        | _ => none
      else if c == '-' ∨ c.isDigit then
        (parseNumber (c :: rest)).map (fun p => (.num p.1, p.2))
      else none
  | fuel + 1, .members s acc =>
    match skipWs s with
    | c :: rest =>
      if c == '"' then
        match parseStringRest (fuel + 1) rest with
        | none => none
        | some (key, r1) =>
          match skipWs r1 with
          | ':' :: r2 =>
            match parseF fuel (.value r2) with
            | none => none
            | some (v, r3) =>
              match skipWs r3 with
              | ',' :: r4 => parseF fuel (.members r4 (acc ++ [(key, v)]))
              | c2 :: r4 =>
                if c2 == rbrace then some (.obj (acc ++ [(key, v)]), r4) else none
              | [] => none
          | _ => none
      else none
    | [] => none
  | fuel + 1, .elems s acc =>
    match parseF fuel (.value s) with
    | none => none
    | some (v, r1) =>
      match skipWs r1 with
      | ',' :: r2 => parseF fuel (.elems r2 (acc ++ [v]))
      | c :: r2 => if c == ']' then some (.arr (acc ++ [v]), r2) else none
      | [] => none

/-- Model of `json.loads`: parse one value and require only whitespace after
it; any parse failure (an exception in Python) is `none`. -/
def json_loads (s : List Char) : Option Json :=
  match parseF (2 * s.length + 8) (.value s) with
  | some (v, rest) => if (skipWs rest).isEmpty then some v else none
  | none => none

/-- Fence-opening marker `[btick, btick, btick]` followed by the word json. -/
def fenceTag : List Char := [btick, btick, btick] ++ ("json").toList

/-- Plain fence marker of three backticks. -/
def fenceBar : List Char := [btick, btick, btick]

/-- Fence marker followed by a newline (second entry of `end_markers`). -/
def fenceBarNl : List Char := fenceBar ++ ['\n']

/-- End-of-block index used by method 1 of the extractor: starts at the length
of the remaining text and is lowered to each found end marker, mirroring the
`for end_marker in end_markers` loop. -/
def endIdxOf (jp : List Char) : Nat :=
  let e0 := jp.length
  let e1 := match findSub fenceBar jp with
    | some k => min e0 k
    | none => e0
  match findSub fenceBarNl jp with
  | some k => min e1 k
  | none => e1

/-- Fenced-block content extracted by method 1 (text between the opening
marker and the nearest end marker, stripped). -/
def fencedContent (t : List Char) : List Char :=
  let start := (findSub fenceTag t).getD 0 + 7
  let jp := t.drop start
  pyStrip (jp.take (endIdxOf jp))

/-- Brace-scanning loop of method 2: walk from the first left brace keeping a
nesting count (Python semantics with an `Int` counter), returning the absolute
index where the count returns to zero. -/
def braceScanAux : List Char → Nat → Int → Option Nat
  | [], _, _ => none
  | c :: rest, i, cnt =>
    if c == lbrace then braceScanAux rest (i + 1) (cnt + 1)
    else if c == rbrace then
      if cnt - 1 = 0 then some i else braceScanAux rest (i + 1) (cnt - 1)
    else braceScanAux rest (i + 1) cnt

/-- Method 2 of the extractor: the substring from the first left brace to its
matching right brace, `none` when there is no left brace or the scan never
returns to zero nesting. -/
def braceSlice (t : List Char) : Option (List Char) :=
  match t.findIdx? (· == lbrace) with
  | none => none
  | some start =>
    match braceScanAux (t.drop start) start 0 with
    | some endB => some ((t.drop start).take (endB + 1 - start))
    | none => none

/-- Model of `_extract_json_from_response`: method 1 (fenced block) when the
opening marker occurs anywhere in the text, otherwise method 2 (brace scan),
otherwise method 3 (parse the stripped whole text).  A `json.loads` failure
inside any method raises `JSONDecodeError`, which the single surrounding
`except` turns into `None` — so a failing method never falls through to the
next one. -/
def _extract_json_from_response (t : List Char) : Option Json :=
  match findSub fenceTag t with
  | some _ => json_loads (fencedContent t)
  | none =>
    match braceSlice t with
    | some jt => json_loads jt
    | none => json_loads (pyStrip t)

/-! ## Rounding

Model of decimal rounding used by Python's `round(x, n)` and by the
`f"\x7bx:.8f\x7d"` format: round half to even at the n-th decimal place,
applied here to the exact rational value. -/

/-- Banker's rounding of a rational to an integer (`Rat.floor` is used
rather than `Int.floor` so the definition evaluates by kernel reduction). -/
def bankRound (y : ℚ) : ℤ :=
  if y - Rat.floor y < 1 / 2 then Rat.floor y
  else if (1 : ℚ) / 2 < y - Rat.floor y then Rat.floor y + 1
  else if Rat.floor y % 2 = 0 then Rat.floor y else Rat.floor y + 1

/-- Round half to even at `n` decimal places. -/
def pyRound (x : ℚ) (n : ℕ) : ℚ :=
  (bankRound (x * (10 : ℚ) ^ n) : ℚ) / (10 : ℚ) ^ n

/-- Decimal value of the 8-place fixed-point format used for mock candle
prices, read back by `float(...)`. -/
def fmt8 (x : ℚ) : ℚ := pyRound x 8

/-- Decimal value of the 2-place fixed-point format used for mock volume. -/
def fmt2 (x : ℚ) : ℚ := pyRound x 2

/-! ## Market data provider chain -/

/-- One OHLCV candle in the Binance-like list layout
`[timestamp, open, high, low, close, volume, close_time, ...]` produced by
every provider; the price/volume strings are modelled by their numeric
values and the constant trailing fields are omitted. -/
structure Candle where
  timestamp : ℤ
  «open» : ℚ
  high : ℚ
  low : ℚ
  close : ℚ
  volume : ℚ
  close_time : ℤ
deriving DecidableEq, Repr

/-- One CoinGecko OHLC point `[timestamp, open, high, low, close]`. -/
structure CGPoint where
  ts : ℤ
  o : ℚ
  h : ℚ
  l : ℚ
  c : ℚ
deriving DecidableEq, Repr

/-- One CoinCap history point (`time`, `priceUsd`). -/
structure CCPoint where
  time : ℤ
  priceUsd : ℚ
deriving DecidableEq, Repr

/-- Outcome of one HTTP GET: a raised exception (network error or malformed
body) or a response with a status code and parsed body. -/
inductive HttpResult (α : Type) where
  | error : HttpResult α
  | response (status : ℕ) (body : α) : HttpResult α

/-- Random draws consumed by one iteration of `_generate_mock_data`:
`change ∈ [-0.02, 0.02]`, high factor `∈ [1.001, 1.01]`, low factor
`∈ [0.99, 0.999]`, close perturbation `∈ [-0.01, 0.01]`, volume
`∈ [1000000, 5000000]`. -/
structure CandleDraw where
  change : ℚ
  hf : ℚ
  lf : ℚ
  cf : ℚ
  vol : ℚ
deriving DecidableEq, Repr

/-- Stated ranges of the draws of one mock-candle iteration. -/
def DrawInRange (d : CandleDraw) : Prop :=
  -1/50 ≤ d.change ∧ d.change ≤ 1/50 ∧
  1001/1000 ≤ d.hf ∧ d.hf ≤ 101/100 ∧
  99/100 ≤ d.lf ∧ d.lf ≤ 999/1000 ∧
  -1/100 ≤ d.cf ∧ d.cf ≤ 1/100 ∧
  1000000 ≤ d.vol ∧ d.vol ≤ 5000000

instance (d : CandleDraw) : Decidable (DrawInRange d) := by
  unfold DrawInRange; infer_instance

/-- Environment of one `get_crypto_data` call: the outcome of the CoinGecko
request, the outcome of the CoinCap request, the current time in
milliseconds (`time.time() * 1000`), and the stream of random draws. -/
structure FetchEnv where
  coingecko : HttpResult (List CGPoint)
  coincap : HttpResult (List CCPoint)
  nowMs : ℤ
  draws : ℕ → CandleDraw

/-- Symbol table of `_try_coingecko_api` (also used by `_try_coincap_api`). -/
def symbolMapped (symbol : String) : Bool :=
  symbol == "BTCUSDT" || symbol == "ETHUSDT" || symbol == "CROUSDT"

/-- Conversion of one CoinGecko point to the Binance-like layout: mock
volume `1000000`, close time `timestamp + 300000`. -/
def convertCG (p : CGPoint) : Candle :=
  { timestamp := p.ts, «open» := p.o, high := p.h, low := p.l, close := p.c,
    volume := 1000000, close_time := p.ts + 300000 }

/-- Model of `_try_coingecko_api`: unmapped symbols fail immediately; a
non-200 status or an exception yields `None`; a 200 response is converted
point-for-point (no truncation). -/
def _try_coingecko_api (env : FetchEnv) (symbol : String) : Option (List Candle) :=
  if !symbolMapped symbol then none
  else
    match env.coingecko with
    | .error => none
    | .response status body =>
      if status = 200 then some (body.map convertCG) else none

/-- Conversion of one CoinCap point: synthetic OHLC around the single price,
mock volume `1000000`, close time `time + 300000`. -/
def convertCC (p : CCPoint) : Candle :=
  { timestamp := p.time,
    «open» := p.priceUsd * (999/1000),
    high := p.priceUsd * (1001/1000),
    low := p.priceUsd * (998/1000),
    close := p.priceUsd,
    volume := 1000000, close_time := p.time + 300000 }

/-- Model of `_try_coincap_api`: the symbol table has a computed default, so
every symbol proceeds to the request; a 200 response keeps the last 200
points (`data[-200:]`) and converts them. -/
def _try_coincap_api (env : FetchEnv) (symbol : String) : Option (List Candle) :=
  match env.coincap with
  | .error => none
  | .response status body =>
    if status = 200 then
      some ((body.drop (body.length - 200)).map convertCC)
    else none

/-- Base prices of `_generate_mock_data` (`base_prices.get(symbol, 100)`). -/
def basePrices (symbol : String) : ℚ :=
  if symbol = "BTCUSDT" then 65000
  else if symbol = "ETHUSDT" then 3500
  else if symbol = "CROUSDT" then 12/100
  else 100

/-- Candle emitted by iteration `i` of `_generate_mock_data`: timestamp
`now - (200 - i) * 300000`, open `base * (1 + change)`, high/low scaled from
the open, close perturbed from the open, prices formatted to 8 decimal
places, volume to 2, close time `timestamp + 299999`. -/
def mockCandle (d : CandleDraw) (now : ℤ) (i : ℕ) (base : ℚ) : Candle :=
  let openP := base * (1 + d.change)
  let ts : ℤ := now - (200 - (i : ℤ)) * 300000
  { timestamp := ts, «open» := fmt8 openP, high := fmt8 (openP * d.hf),
    low := fmt8 (openP * d.lf), close := fmt8 (openP + d.cf * openP),
    volume := fmt2 d.vol, close_time := ts + 299999 }

/-- Next base price: the exact (unformatted) close of the current iteration
(`base_price = close_price`). -/
def mockNext (d : CandleDraw) (base : ℚ) : ℚ :=
  base * (1 + d.change) + d.cf * (base * (1 + d.change))

/-- Generation loop of `_generate_mock_data`. -/
def mockAux (draws : ℕ → CandleDraw) (now : ℤ) : ℕ → ℕ → ℚ → List Candle
  | _, 0, _ => []
  | i, count + 1, base =>
    mockCandle (draws i) now i base ::
      mockAux draws now (i + 1) count (mockNext (draws i) base)

/-- Model of `_generate_mock_data`: 200 candles from a random walk seeded at
the per-symbol base price. -/
def _generate_mock_data (draws : ℕ → CandleDraw) (now : ℤ) (symbol : String) : List Candle :=
  mockAux draws now 0 200 (basePrices symbol)

/-- Model of `get_crypto_data(symbol, interval='5m', limit=200)`: CoinGecko,
then CoinCap, then the synthetic generator; a provider result is accepted
only when truthy (`if coingecko_data:`), i.e. non-`None` and non-empty.
The `interval` and `limit` parameters are accepted but never read. -/
def get_crypto_data (env : FetchEnv) (symbol : String)
    (interval : String := "5m") (limit : ℕ := 200) : List Candle :=
  match _try_coingecko_api env symbol with
  | some (c :: cs) => c :: cs
  | _ =>
    match _try_coincap_api env symbol with
    | some (c :: cs) => c :: cs
    | _ => _generate_mock_data env.draws env.nowMs symbol

/-! ## AI analysis client -/

/-- First part of a Gemini candidate reply; `text` is absent when the key is
missing (a `KeyError` in the source). -/
structure GPart where
  text : Option (List Char)

/-- Content object of a candidate; `parts` is absent when the key is missing. -/
structure GContent where
  parts : Option (List GPart)

/-- One candidate reply; `content` is absent when the key is missing. -/
structure GCandidate where
  content : Option GContent

/-- Parsed top-level Gemini response body (`response.json()`). -/
structure GeminiJson where
  candidates : Option (List GCandidate)

/-- Outcome of one POST to the Gemini endpoint: a raised
`requests.RequestException`, or a response with a status code and the body
that `response.json()` would yield (`none` when `.json()` raises). -/
inductive AttemptOutcome where
  | netError : AttemptOutcome
  | response (status : ℕ) (body : Option GeminiJson) : AttemptOutcome

/-- Result of the retry loop: the response it broke out of the loop with, or
the decision to fall back to mock analysis. -/
inductive RetryOut where
  | broke (body : Option GeminiJson) : RetryOut
  | fellback : RetryOut

/-- Retry loop of `analyze_with_gemini` (`for attempt in range(3)`), with the
sleeps it performs (in seconds) recorded in order.  On HTTP 503 before the
last attempt it sleeps `2 ** attempt` and retries; on the last attempt the
503 falls through to `raise_for_status()`, whose exception (like any other
4xx/5xx or network error) returns the mock fallback when `attempt == 2` and
otherwise sleeps `2 ** attempt` and retries. -/
def retryFrom (att : ℕ → AttemptOutcome) : ℕ → ℕ → RetryOut × List ℕ
  | _, 0 => (.fellback, [])
  | k, fuel + 1 =>
    match att k with
    | .netError =>
      if k = 2 then (.fellback, [])
      else
        let r := retryFrom att (k + 1) fuel
        (r.1, 2 ^ k :: r.2)
    | .response status body =>
      if status = 503 then
        if k < 2 then
          let r := retryFrom att (k + 1) fuel
          (r.1, 2 ^ k :: r.2)
        else (.fellback, [])
      else if 400 ≤ status then
        if k = 2 then (.fellback, [])
        else
          let r := retryFrom att (k + 1) fuel
          (r.1, 2 ^ k :: r.2)
      else (.broke body, [])

/-- Three-attempt retry loop starting at attempt 0. -/
def retryLoop (att : ℕ → AttemptOutcome) : RetryOut × List ℕ :=
  retryFrom att 0 3

/-- Structure checks performed on the parsed Gemini body before extraction:
non-empty `candidates`, a `content` with non-empty `parts`, and the `text`
of the first part (a missing `text` raises `KeyError`, caught below). -/
def geminiText (g : GeminiJson) : Option (List Char) :=
  match g.candidates with
  | none => none
  | some [] => none
  | some (cand :: _) =>
    match cand.content with
    | none => none
    | some ct =>
      match ct.parts with
      | none => none
      | some [] => none
      | some (p :: _) => p.text

/-- Random draws consumed by `_generate_mock_analysis`: the RSI value and the
multiplier / additive draws for the indicators. -/
structure MockDraws where
  rsi : ℚ
  m20 : ℚ
  m50 : ℚ
  e20 : ℚ
  m200 : ℚ
  macdLine : ℚ
  macdDelta : ℚ
deriving DecidableEq, Repr

/-- Indicator block of the mock analysis record. -/
structure MockIndicators where
  rsi : ℚ
  sma20 : ℚ
  sma50 : ℚ
  ema20 : ℚ
  sma200 : ℚ
  macd_line : ℚ
  macd_signal : ℚ
  macd_histogram : ℚ
deriving DecidableEq, Repr

/-- Support/resistance block of the mock analysis record. -/
structure MockLevels where
  support : ℚ
  resistance : ℚ
deriving DecidableEq, Repr

/-- Signal block of the mock analysis record (enumerated strings). -/
structure MockSignals where
  rsi_signal : String
  trend_short : String
  trend_long : String
  sma_cross : String
  macd_signal : String
  overall_signal : String
deriving DecidableEq, Repr

/-- Mock analysis record returned by `_generate_mock_analysis`. -/
structure MockAnalysis where
  symbol : String
  current_price : ℚ
  timestamp : String
  indicators : MockIndicators
  levels : MockLevels
  signals : MockSignals
  analysis : String
deriving DecidableEq, Repr

/-- RSI classification of the mock analysis. -/
def rsiSignalOf (rsi : ℚ) : String :=
  if 70 < rsi then "overbought" else if rsi < 30 then "oversold" else "neutral"

/-- Trend classification (`"bullish" if current_price > sma else "bearish"`). -/
def trendOf (sma current_price : ℚ) : String :=
  if sma < current_price then "bullish" else "bearish"

/-- SMA-cross classification of the mock analysis. -/
def smaCrossOf (sma20 sma50 : ℚ) : String :=
  if sma50 * (1002/1000) < sma20 then "golden_cross"
  else if sma20 < sma50 * (998/1000) then "death_cross"
  else "neutral"

/-- MACD trend classification of the mock analysis. -/
def macdTrendOf (macd_histogram : ℚ) : String :=
  if 0 < macd_histogram then "bullish" else "bearish"

/-- Overall-signal thresholding over the count of bullish signals.  The
`strong_sell` branch is unreachable (`≤ 0` is checked after `≤ 1` already
matched), mirroring the source. -/
def overallOf (bullish_signals : ℕ) : String :=
  if 4 ≤ bullish_signals then "strong_buy"
  else if 3 ≤ bullish_signals then "buy"
  else if bullish_signals ≤ 1 then "sell"
  else if bullish_signals ≤ 0 then "strong_sell"
  else "hold"

/-- Model of `_generate_mock_analysis`: the current price is the last
candle's close (or 50000 for an empty series); indicators are drawn around
it; signals are derived from the unrounded draws; the stored indicator
values are rounded. -/
def _generate_mock_analysis (d : MockDraws) (nowIso : String)
    (symbol : String) (ohlcv_data : List Candle) : MockAnalysis :=
  let current_price : ℚ :=
    match ohlcv_data.getLast? with
    | some cndl => cndl.close
    | none => 50000
  let rsi := d.rsi
  let sma20 := current_price * d.m20
  let sma50 := current_price * d.m50
  let ema20 := current_price * d.e20
  let sma200 := current_price * d.m200
  let macd_line := d.macdLine
  let macd_signal := macd_line + d.macdDelta
  let macd_histogram := macd_line - macd_signal
  let rsi_signal := rsiSignalOf rsi
  let trend_short := trendOf sma20 current_price
  let trend_long := trendOf sma200 current_price
  let sma_cross := smaCrossOf sma20 sma50
  let macd_signal_trend := macdTrendOf macd_histogram
  let bullish_signals : ℕ :=
    (if rsi < 30 then 1 else 0) +
    (if trend_short = "bullish" then 1 else 0) +
    (if trend_long = "bullish" then 1 else 0) +
    (if sma_cross = "golden_cross" then 1 else 0) +
    (if macd_signal_trend = "bullish" then 1 else 0)
  let overall := overallOf bullish_signals
  { symbol := symbol
    current_price := current_price
    timestamp := nowIso
    indicators :=
      { rsi := pyRound rsi 1, sma20 := pyRound sma20 2, sma50 := pyRound sma50 2,
        ema20 := pyRound ema20 2, sma200 := pyRound sma200 2,
        macd_line := pyRound macd_line 3, macd_signal := pyRound macd_signal 3,
        macd_histogram := pyRound macd_histogram 3 }
    levels :=
      { support := pyRound (current_price * (95/100)) 2,
        resistance := pyRound (current_price * (105/100)) 2 }
    signals :=
      { rsi_signal := rsi_signal, trend_short := trend_short,
        trend_long := trend_long, sma_cross := sma_cross,
        macd_signal := macd_signal_trend, overall_signal := overall }
    analysis := "Mock analysis: " ++ symbol ++ " showing " ++ trend_short ++
      " short-term and " ++ trend_long ++ " long-term trends with " ++
      rsi_signal ++ " RSI conditions." }

/-- Result of `analyze_with_gemini`.  In Python both branches return a plain
dict; the constructor records whether the dict came from the parsed AI
response or from the synthetic fallback. -/
inductive GeminiAnalysis where
  | fromAI (j : Json) : GeminiAnalysis
  | synthetic (m : MockAnalysis) : GeminiAnalysis

/-- Environment of one `analyze_with_gemini` call: outcome of each POST
attempt, the random draws of the fallback, and `datetime.now().isoformat()`. -/
structure AnalyzeEnv where
  attempts : ℕ → AttemptOutcome
  draws : MockDraws
  nowIso : String

/-- Model of `analyze_with_gemini`, returning the result together with the
list of retry sleeps performed (in seconds).  An empty candle series returns
`None` immediately.  After the retry loop, a missing or malformed body, a
failed structure check, a failed JSON extraction, or a falsy extracted value
all fall back to the synthetic analysis. -/
def analyze_with_gemini (env : AnalyzeEnv) (symbol : String)
    (ohlcv_data : List Candle) : Option GeminiAnalysis × List ℕ :=
  if ohlcv_data.isEmpty then (none, [])
  else
    let mock : GeminiAnalysis :=
      .synthetic (_generate_mock_analysis env.draws env.nowIso symbol ohlcv_data)
    match retryLoop env.attempts with
    | (.fellback, s) => (some mock, s)
    | (.broke none, s) => (some mock, s)
    | (.broke (some g), s) =>
      match geminiText g with
      | none => (some mock, s)
      | some text =>
        match _extract_json_from_response text with
        | some j => if jsonTruthy j then (some (.fromAI j), s) else (some mock, s)
        | none => (some mock, s)

/-! ## Notification decision -/

/-- Fields of an analysis record read by `should_send_notification`. -/
structure NotifInput where
  rsi : ℚ
  macd_histogram : ℚ
  overall_signal : String
  sma_cross : String
  macd_signal : String
deriving DecidableEq, Repr

/-- Model of `should_send_notification`; `none` models a falsy argument
(`if not analysis: return False`). -/
def should_send_notification (analysis : Option NotifInput) : Bool :=
  match analysis with
  | none => false
  | some a =>
    if 70 < a.rsi ∨ a.rsi < 30 then true
    else if a.overall_signal = "strong_buy" ∨ a.overall_signal = "strong_sell" then true
    else if a.sma_cross = "golden_cross" ∨ a.sma_cross = "death_cross" then true
    else if (a.macd_signal = "bullish" ∨ a.macd_signal = "bearish") ∧
        1/10 < |a.macd_histogram| then true
    else false

/-! ## Helper lemmas -/

/-- The mock-candle loop emits exactly as many candles as it counts. -/
lemma mockAux_length (draws : ℕ → CandleDraw) (now : ℤ) :
    ∀ (count i : ℕ) (base : ℚ), (mockAux draws now i count base).length = count := by
  intro count
  induction count with
  | zero => intro i base; rfl
  | succ n ih => intro i base; simp [mockAux, ih]

/-- The synthetic generator always yields exactly 200 candles. -/
lemma generate_mock_data_length (draws : ℕ → CandleDraw) (now : ℤ) (symbol : String) :
    (_generate_mock_data draws now symbol).length = 200 :=
  mockAux_length draws now 200 0 (basePrices symbol)

/-! ## C1: provider-chain fetch is never empty, synthetic series has 200 candles -/

/-- C1: for every environment and symbol, the synthetic generator produces a
series of exactly 200 candles, and `get_crypto_data` never returns an empty
(or null) series — even when every real provider fails it falls back to the
synthetic series. -/
theorem C1_fetch_never_empty :
    ∀ (env : FetchEnv) (symbol interval : String) (limit : ℕ),
      (_generate_mock_data env.draws env.nowMs symbol).length = 200 ∧
      get_crypto_data env symbol interval limit ≠ [] := by
  intro env symbol interval limit
  refine ⟨generate_mock_data_length _ _ _, ?_⟩
  unfold get_crypto_data
  split
  · simp
  · split
    · simp
    · intro h
      have := generate_mock_data_length env.draws env.nowMs symbol
      rw [h] at this
      simp at this

/-! ## C9: `get_crypto_data` ignores its `interval` and `limit` arguments -/

/-- C9: two runs of `get_crypto_data` over the same environment (same
provider responses, same random draws) and symbol but different `interval`
and `limit` arguments return identical candle series — both arguments are
ignored by the implementation. -/
theorem C9_interval_limit_ignored :
    ∀ (env : FetchEnv) (symbol i1 i2 : String) (l1 l2 : ℕ),
      get_crypto_data env symbol i1 l1 = get_crypto_data env symbol i2 l2 :=
  fun _ _ _ _ _ _ => rfl

/-! ## C7: notification decision -/

/-- C7: `should_send_notification` is true exactly when RSI is above 70 or
below 30, or the overall signal is strong, or an SMA cross fired, or the
MACD signal is directional with |histogram| above 0.1; together with the
truth-table rows of the specification. -/
theorem C7_notification_iff :
    (∀ a : NotifInput, should_send_notification (some a) = true ↔
      (70 < a.rsi ∨ a.rsi < 30 ∨
       a.overall_signal = "strong_buy" ∨ a.overall_signal = "strong_sell" ∨
       a.sma_cross = "golden_cross" ∨ a.sma_cross = "death_cross" ∨
       ((a.macd_signal = "bullish" ∨ a.macd_signal = "bearish") ∧
         1/10 < |a.macd_histogram|))) ∧
    (∀ (s1 s2 s3 : String) (h : ℚ),
      should_send_notification (some ⟨75, h, s1, s2, s3⟩) = true) ∧
    (∀ h : ℚ,
      should_send_notification (some ⟨50, h, "hold", "neutral", "neutral"⟩) = false) ∧
    (∀ (s1 s3 : String) (h : ℚ),
      should_send_notification (some ⟨50, h, s1, "golden_cross", s3⟩) = true) ∧
    should_send_notification (some ⟨50, 5/100, "hold", "neutral", "bullish"⟩) = false ∧
    should_send_notification (some ⟨50, 15/100, "hold", "neutral", "bullish"⟩) = true := by
  refine ⟨?_, ?_, ?_, ?_, ?_, ?_⟩
  · intro a
    simp only [should_send_notification]
    split_ifs with h1 h2 h3 h4 <;> simp_all <;> tauto
  · intro s1 s2 s3 h
    simp only [should_send_notification]
    rw [if_pos (Or.inl (by norm_num))]
  · intro h
    simp only [should_send_notification]
    rw [if_neg (by norm_num), if_neg (by decide), if_neg (by decide),
      if_neg (fun hc => absurd hc.1 (by decide))]
  · intro s1 s3 h
    simp only [should_send_notification]
    split_ifs with h1 h2 h3 h4
    · rfl
    · rfl
    · rfl
    · exact absurd (Or.inl trivial) h3
    · exact absurd (Or.inl trivial) h3
  · simp only [should_send_notification]
    rw [if_neg (by norm_num), if_neg (by decide), if_neg (by decide),
      if_neg (fun hc => absurd hc.2
        (by rw [abs_of_nonneg (by norm_num : (0:ℚ) ≤ 5/100)]; norm_num))]
  · simp only [should_send_notification]
    rw [if_neg (by norm_num), if_neg (by decide), if_neg (by decide),
      if_pos ⟨Or.inl trivial,
        by rw [abs_of_nonneg (by norm_num : (0:ℚ) ≤ 15/100)]; norm_num⟩]

/-! ## C2: analysis result on empty and non-empty series -/

/-- Enum membership of every signal field of a mock analysis record, per the
fixed signal vocabulary of the specification. -/
def SignalsValid (s : MockSignals) : Prop :=
  s.rsi_signal ∈ ["overbought", "oversold", "neutral"] ∧
  s.trend_short ∈ ["bullish", "bearish", "neutral"] ∧
  s.trend_long ∈ ["bullish", "bearish", "neutral"] ∧
  s.sma_cross ∈ ["golden_cross", "death_cross", "neutral"] ∧
  s.macd_signal ∈ ["bullish", "bearish", "neutral"] ∧
  s.overall_signal ∈ ["strong_buy", "buy", "hold", "sell", "strong_sell"]

/-- The RSI classification stays in its enum. -/
lemma rsiSignalOf_mem (rsi : ℚ) : rsiSignalOf rsi ∈ ["overbought", "oversold", "neutral"] := by
  unfold rsiSignalOf; split_ifs <;> simp

/-- The trend classification stays in its enum. -/
lemma trendOf_mem (a b : ℚ) : trendOf a b ∈ ["bullish", "bearish", "neutral"] := by
  unfold trendOf; split_ifs <;> simp

/-- The SMA-cross classification stays in its enum. -/
lemma smaCrossOf_mem (a b : ℚ) : smaCrossOf a b ∈ ["golden_cross", "death_cross", "neutral"] := by
  unfold smaCrossOf; split_ifs <;> simp

/-- The MACD trend classification stays in its enum. -/
lemma macdTrendOf_mem (h : ℚ) : macdTrendOf h ∈ ["bullish", "bearish", "neutral"] := by
  unfold macdTrendOf; split_ifs <;> simp

/-- The overall-signal classification stays in its enum. -/
lemma overallOf_mem (n : ℕ) : overallOf n ∈ ["strong_buy", "buy", "hold", "sell", "strong_sell"] := by
  unfold overallOf; split_ifs <;> simp

/-- Every mock analysis record has valid signal enums. -/
lemma mock_analysis_signals_valid (d : MockDraws) (iso sym : String)
    (data : List Candle) :
    SignalsValid (_generate_mock_analysis d iso sym data).signals := by
  refine ⟨rsiSignalOf_mem _, trendOf_mem _ _, trendOf_mem _ _, smaCrossOf_mem _ _,
    macdTrendOf_mem _, overallOf_mem _⟩

/-- C2 (amended): for every non-empty candle series the analysis operation
returns a result (parsed payload or synthetic fallback) and never `none`;
and the synthetic fallback record always carries valid signal enums. -/
theorem C2_analysis_total_amended :
    (∀ (env : AnalyzeEnv) (symbol : String) (data : List Candle), data ≠ [] →
      (analyze_with_gemini env symbol data).1 ≠ none) ∧
    (∀ (d : MockDraws) (iso sym : String) (data : List Candle),
      SignalsValid (_generate_mock_analysis d iso sym data).signals) := by
  constructor
  · intro env symbol data hne
    have hEmpty : data.isEmpty = false := by
      cases data with
      | nil => exact absurd rfl hne
      | cons a l => rfl
    simp only [analyze_with_gemini, hEmpty, Bool.false_eq_true, if_false]
    split
    · simp
    · simp
    · split
      · simp
      · split
        · split_ifs <;> simp
        · simp
  · exact mock_analysis_signals_valid

/-- Environment whose every POST attempt raises a network error. -/
def envAllNetErr : AnalyzeEnv :=
  { attempts := fun _ => .netError, draws := ⟨50, 1, 1, 1, 1, 0, 0⟩, nowIso := "t" }

/-- Fixed candle used in concrete instantiations. -/
def candle0 : Candle :=
  { timestamp := 0, «open» := 1, high := 1, low := 1, close := 1,
    volume := 1, close_time := 299999 }

/-- C2 counterexample: on the empty candle series the analysis operation
returns `None` (with no retry sleeps) instead of a structurally valid
result, contradicting the claim for the empty series. -/
theorem C2_counterexample_empty_series :
    analyze_with_gemini envAllNetErr ("BTCUSDT") [] = (none, []) := rfl

/-- Witness for C2 (amended) at a concrete non-empty series. -/
theorem C2_analysis_total_amended_witness :
    (analyze_with_gemini envAllNetErr ("BTCUSDT") [candle0]).1 ≠ none :=
  C2_analysis_total_amended.1 envAllNetErr ("BTCUSDT") [candle0] (List.cons_ne_nil _ _)

/-! ## C3: retry schedule -/

/-- Attempt streams whose first three entries are given explicitly. -/
def attempts3 (a0 a1 a2 : AttemptOutcome) : ℕ → AttemptOutcome :=
  fun k => if k = 0 then a0 else if k = 1 then a1 else a2

/-- An attempt outcome on which the retry loop cannot break out: a network
error, an HTTP 503, or any other 4xx/5xx status. -/
def AttemptFails (a : AttemptOutcome) : Prop :=
  a = .netError ∨ ∃ st b, a = .response st b ∧ (st = 503 ∨ 400 ≤ st)

/-- On the last attempt, any failing outcome falls back without sleeping. -/
lemma retryFrom_last_fails (att : ℕ → AttemptOutcome) (h : AttemptFails (att 2)) :
    retryFrom att 2 1 = (.fellback, []) := by
  rcases h with h | ⟨st, b, ha, hst⟩
  · simp [retryFrom, h]
  · by_cases h503 : st = 503
    · simp [retryFrom, ha, h503]
    · simp [retryFrom, ha, h503, hst.resolve_left h503]

/-- C3: when the first two attempts return HTTP 503, the loop sleeps exactly
1 second then 2 seconds; if the third attempt succeeds with an extractable,
truthy JSON payload the parsed response is returned (not the synthetic
fallback), and if the third attempt also fails the synthetic fallback is
returned. -/
theorem C3_retry_schedule :
    (∀ (b0 b1 : Option GeminiJson) (g : GeminiJson) (d : MockDraws)
       (iso sym : String) (data : List Candle) (text : List Char) (j : Json),
      data ≠ [] →
      geminiText g = some text →
      _extract_json_from_response text = some j →
      jsonTruthy j = true →
      analyze_with_gemini
        ⟨attempts3 (.response 503 b0) (.response 503 b1) (.response 200 (some g)), d, iso⟩
        sym data = (some (.fromAI j), [1, 2])) ∧
    (∀ (b0 b1 : Option GeminiJson) (a2 : AttemptOutcome) (d : MockDraws)
       (iso sym : String) (data : List Candle),
      data ≠ [] →
      AttemptFails a2 →
      analyze_with_gemini
        ⟨attempts3 (.response 503 b0) (.response 503 b1) a2, d, iso⟩
        sym data
        = (some (.synthetic (_generate_mock_analysis d iso sym data)), [1, 2])) := by
  constructor
  · intro b0 b1 g d iso sym data text j hne hg hx ht
    have hEmpty : data.isEmpty = false := by
      cases data with
      | nil => exact absurd rfl hne
      | cons a l => rfl
    have hloop :
        retryLoop (attempts3 (.response 503 b0) (.response 503 b1)
          (.response 200 (some g))) = (.broke (some g), [1, 2]) := rfl
    simp only [analyze_with_gemini, hEmpty, Bool.false_eq_true, if_false, hloop,
      hg, hx, ht, if_true]
  · intro b0 b1 a2 d iso sym data hne hfail
    have hEmpty : data.isEmpty = false := by
      cases data with
      | nil => exact absurd rfl hne
      | cons a l => rfl
    have h2 : retryFrom (attempts3 (.response 503 b0) (.response 503 b1) a2) 2 1
        = (.fellback, []) := retryFrom_last_fails _ hfail
    have hstep :
        retryLoop (attempts3 (.response 503 b0) (.response 503 b1) a2)
          = ((retryFrom (attempts3 (.response 503 b0) (.response 503 b1) a2) 2 1).1,
             1 :: 2 :: (retryFrom (attempts3 (.response 503 b0) (.response 503 b1) a2) 2 1).2) :=
      rfl
    have hloop :
        retryLoop (attempts3 (.response 503 b0) (.response 503 b1) a2)
          = (.fellback, [1, 2]) := by
      rw [hstep, h2]
    simp only [analyze_with_gemini, hEmpty, Bool.false_eq_true, if_false, hloop]

/-- Parsed-payload text of the concrete Gemini body used in the C3 witness. -/
def text0 : List Char := ("\x7b\"k\": \"v\"\x7d").toList

/-- JSON object parsed from `text0`. -/
def j0 : Json := .obj [(['k'], .str ['v'])]

/-- Concrete well-formed Gemini body whose first part carries `text0`. -/
def g0 : GeminiJson := ⟨some [⟨some ⟨some [⟨some text0⟩]⟩⟩]⟩

/-- Fixed mock-analysis draw vector for concrete instantiations. -/
def mdraws0 : MockDraws := ⟨50, 1, 1, 1, 1, 0, 0⟩

/-- Witness for C3: concrete 503/503/success and 503/503/503 runs. -/
theorem C3_retry_schedule_witness :
    analyze_with_gemini
      ⟨attempts3 (.response 503 none) (.response 503 none) (.response 200 (some g0)),
        mdraws0, "t"⟩ ("BTCUSDT") [candle0] = (some (.fromAI j0), [1, 2]) ∧
    analyze_with_gemini
      ⟨attempts3 (.response 503 none) (.response 503 none) (.response 503 none),
        mdraws0, "t"⟩ ("BTCUSDT") [candle0]
      = (some (.synthetic (_generate_mock_analysis mdraws0 ("t") ("BTCUSDT") [candle0])), [1, 2]) :=
  ⟨C3_retry_schedule.1 none none g0 mdraws0 ("t") ("BTCUSDT") [candle0] text0 j0
      (List.cons_ne_nil _ _) rfl (by rfl) rfl,
   C3_retry_schedule.2 none none (.response 503 none) mdraws0 ("t") ("BTCUSDT") [candle0]
      (List.cons_ne_nil _ _) (Or.inr ⟨503, none, rfl, Or.inl rfl⟩)⟩

/-! ## C5 / C6 / C8: provider-candle shapes, lengths and ordering -/

/-- A successful CoinGecko fetch is a 1:1 conversion of the response points. -/
lemma coingecko_some_shape (env : FetchEnv) (sym : String) (d : List Candle)
    (hd : _try_coingecko_api env sym = some d) :
    ∃ pts : List CGPoint, d = pts.map convertCG := by
  unfold _try_coingecko_api at hd
  split_ifs at hd
  split at hd
  · exact absurd hd (by simp)
  · split_ifs at hd
    exact ⟨_, (Option.some_inj.mp hd).symm⟩

/-- A successful CoinCap fetch converts the last 200 response points. -/
lemma coincap_some_shape (env : FetchEnv) (sym : String) (d : List Candle)
    (hd : _try_coincap_api env sym = some d) :
    ∃ pts : List CCPoint, d = (pts.drop (pts.length - 200)).map convertCC := by
  unfold _try_coincap_api at hd
  split at hd
  · exact absurd hd (by simp)
  · split_ifs at hd
    exact ⟨_, (Option.some_inj.mp hd).symm⟩

/-- Every mock candle has close time `timestamp + 299999`. -/
lemma mockAux_close_time (draws : ℕ → CandleDraw) (now : ℤ) :
    ∀ (count i : ℕ) (base : ℚ) (c : Candle), c ∈ mockAux draws now i count base →
      c.close_time = c.timestamp + 299999 := by
  intro count
  induction count with
  | zero => intro i base c hc; simp [mockAux] at hc
  | succ n ih =>
    intro i base c hc
    simp only [mockAux] at hc
    rcases List.mem_cons.mp hc with rfl | htail
    · rfl
    · exact ih (i + 1) _ c htail

/-- C5 (amended): CoinGecko- and CoinCap-converted candles carry
`close_time = timestamp + 300000`, but synthetic candles carry
`close_time = timestamp + 299999` (the Binance-style interval end). -/
theorem C5_close_time_amended :
    (∀ (env : FetchEnv) (sym : String) (d : List Candle),
      _try_coingecko_api env sym = some d →
      ∀ c ∈ d, c.close_time = c.timestamp + 300000) ∧
    (∀ (env : FetchEnv) (sym : String) (d : List Candle),
      _try_coincap_api env sym = some d →
      ∀ c ∈ d, c.close_time = c.timestamp + 300000) ∧
    (∀ (draws : ℕ → CandleDraw) (now : ℤ) (sym : String),
      ∀ c ∈ _generate_mock_data draws now sym, c.close_time = c.timestamp + 299999) := by
  refine ⟨?_, ?_, ?_⟩
  · intro env sym d hd c hc
    obtain ⟨pts, rfl⟩ := coingecko_some_shape env sym d hd
    obtain ⟨p, hp, rfl⟩ := List.mem_map.mp hc
    rfl
  · intro env sym d hd c hc
    obtain ⟨pts, rfl⟩ := coincap_some_shape env sym d hd
    obtain ⟨p, hp, rfl⟩ := List.mem_map.mp hc
    rfl
  · intro draws now sym c hc
    exact mockAux_close_time draws now 200 0 _ c hc

/-- Draw vector with mid-range values that keeps the walk constant. -/
def constDraw : CandleDraw := ⟨0, 1001/1000, 999/1000, 0, 1000000⟩

/-- Constant draw stream. -/
def constDraws : ℕ → CandleDraw := fun _ => constDraw

/-- The head candle of each generation step is a member of the emitted list. -/
lemma mockHead_mem (draws : ℕ → CandleDraw) (now : ℤ) (i count : ℕ) (base : ℚ) :
    mockCandle (draws i) now i base ∈ mockAux draws now i (count + 1) base :=
  List.mem_cons_self _ _

/-- First candle generated for BTCUSDT at time 0 under `constDraws`. -/
def firstC : Candle := mockCandle constDraw 0 0 (basePrices ("BTCUSDT"))

/-- The first synthetic candle is a member of its series. -/
lemma firstC_mem : firstC ∈ _generate_mock_data constDraws 0 ("BTCUSDT") :=
  mockHead_mem constDraws 0 0 199 (basePrices ("BTCUSDT"))

/-- C5 counterexample: the synthetic generator violates
`close_time = timestamp + 300000` (its first candle has
`close_time = timestamp + 299999`). -/
theorem C5_counterexample_mock_offset :
    ¬ ∀ (draws : ℕ → CandleDraw) (now : ℤ) (sym : String),
        ∀ c ∈ _generate_mock_data draws now sym,
          c.close_time = c.timestamp + 300000 := by
  intro h
  have := h constDraws 0 ("BTCUSDT") firstC firstC_mem
  have h1 : firstC.close_time = -59700001 := rfl
  have h2 : firstC.timestamp = -60000000 := rfl
  rw [h1, h2] at this
  omega

/-- Concrete environment whose CoinGecko request succeeds with one point. -/
def envCG1 : FetchEnv :=
  { coingecko := .response 200 [⟨5, 1, 2, 3, 4⟩], coincap := .error,
    nowMs := 0, draws := constDraws }

/-- Concrete environment whose CoinCap request succeeds with one point. -/
def envCC1 : FetchEnv :=
  { coingecko := .error, coincap := .response 200 [⟨7, 2⟩],
    nowMs := 0, draws := constDraws }

/-- Witness for C5 (amended) at concrete provider responses and the concrete
first synthetic candle. -/
theorem C5_close_time_amended_witness :
    (convertCG ⟨5, 1, 2, 3, 4⟩).close_time = (convertCG ⟨5, 1, 2, 3, 4⟩).timestamp + 300000 ∧
    (convertCC ⟨7, 2⟩).close_time = (convertCC ⟨7, 2⟩).timestamp + 300000 ∧
    firstC.close_time = firstC.timestamp + 299999 :=
  ⟨C5_close_time_amended.1 envCG1 ("BTCUSDT") [convertCG ⟨5, 1, 2, 3, 4⟩] rfl
      (convertCG ⟨5, 1, 2, 3, 4⟩) (List.mem_cons_self _ _),
   C5_close_time_amended.2.1 envCC1 ("BTCUSDT") [convertCC ⟨7, 2⟩] rfl
      (convertCC ⟨7, 2⟩) (List.mem_cons_self _ _),
   C5_close_time_amended.2.2 constDraws 0 ("BTCUSDT") firstC firstC_mem⟩

/-- C6 (amended): the CoinCap path returns at most 200 candles and the
synthetic generator exactly 200, but the CoinGecko path converts every
returned point with no truncation, so its series length equals the
provider's point count and can exceed the requested limit. -/
theorem C6_length_amended :
    (∀ (env : FetchEnv) (sym : String) (d : List Candle),
      _try_coincap_api env sym = some d → d.length ≤ 200) ∧
    (∀ (draws : ℕ → CandleDraw) (now : ℤ) (sym : String),
      (_generate_mock_data draws now sym).length = 200) ∧
    (∀ (env : FetchEnv) (sym : String) (pts : List CGPoint),
      symbolMapped sym = true → env.coingecko = .response 200 pts →
      _try_coingecko_api env sym = some (pts.map convertCG) ∧
        (pts.map convertCG).length = pts.length) := by
  refine ⟨?_, generate_mock_data_length, ?_⟩
  · intro env sym d hd
    obtain ⟨pts, rfl⟩ := coincap_some_shape env sym d hd
    rw [List.length_map, List.length_drop]
    omega
  · intro env sym pts hmap henv
    refine ⟨?_, List.length_map _ _⟩
    unfold _try_coingecko_api
    rw [hmap, henv]
    simp

/-- CoinGecko response with 201 points. -/
def pts201 : List CGPoint := (List.range 201).map (fun i => ⟨(i : ℤ), 1, 1, 1, 1⟩)

/-- Environment whose CoinGecko request succeeds with 201 points. -/
def envCG201 : FetchEnv :=
  { coingecko := .response 200 pts201, coincap := .error,
    nowMs := 0, draws := constDraws }

/-- C6 counterexample: with a 201-point CoinGecko response the fetched
series has 201 candles, exceeding the requested limit of 200. -/
theorem C6_counterexample_201 :
    ¬ (get_crypto_data envCG201 ("BTCUSDT") ("5m") 200).length ≤ 200 := by decide

/-- Witness for C6 (amended) at concrete one-point and 201-point responses. -/
theorem C6_length_amended_witness :
    [convertCC ⟨7, 2⟩].length ≤ 200 ∧
    _try_coingecko_api envCG201 ("BTCUSDT") = some (pts201.map convertCG) ∧
      (pts201.map convertCG).length = pts201.length :=
  ⟨C6_length_amended.1 envCC1 ("BTCUSDT") [convertCC ⟨7, 2⟩] rfl,
   C6_length_amended.2.2 envCG201 ("BTCUSDT") pts201 rfl rfl⟩

/-- The executable `Rat.floor` agrees with the ambient `Int.floor`. -/
lemma ratFloor_eq (y : ℚ) : Rat.floor y = ⌊y⌋ := by
  rw [Rat.floor_def', Rat.floor_def]

/-- Banker's rounding written with `Int.floor`. -/
lemma bankRound_eq (y : ℚ) : bankRound y =
    if y - ⌊y⌋ < 1 / 2 then ⌊y⌋
    else if (1 : ℚ) / 2 < y - ⌊y⌋ then ⌊y⌋ + 1
    else if ⌊y⌋ % 2 = 0 then ⌊y⌋ else ⌊y⌋ + 1 := by
  unfold bankRound
  rw [ratFloor_eq]

/-- Banker's rounding lands on the floor or the floor plus one. -/
lemma bankRound_bounds (y : ℚ) : ⌊y⌋ ≤ bankRound y ∧ bankRound y ≤ ⌊y⌋ + 1 := by
  rw [bankRound_eq]
  split_ifs <;> omega

/-- Banker's rounding is monotone. -/
lemma bankRound_mono {y z : ℚ} (h : y ≤ z) : bankRound y ≤ bankRound z := by
  have hf := Int.floor_mono h
  rcases lt_or_eq_of_le hf with hlt | heq
  · have h1 := (bankRound_bounds y).2
    have h2 := (bankRound_bounds z).1
    omega
  · rw [bankRound_eq, bankRound_eq, ← heq]
    split_ifs <;> first | omega | linarith

/-- Decimal rounding is monotone. -/
lemma pyRound_mono (n : ℕ) {x y : ℚ} (h : x ≤ y) : pyRound x n ≤ pyRound y n := by
  unfold pyRound
  have hpow : (0 : ℚ) < 10 ^ n := by positivity
  have h1 : x * 10 ^ n ≤ y * 10 ^ n := mul_le_mul_of_nonneg_right h hpow.le
  have h3 : ((bankRound (x * 10 ^ n) : ℚ)) ≤ ((bankRound (y * 10 ^ n) : ℚ)) := by
    exact_mod_cast bankRound_mono h1
  gcongr

/-- Every base price of the synthetic generator is positive. -/
lemma basePrices_pos (symbol : String) : 0 < basePrices symbol := by
  unfold basePrices
  split_ifs <;> norm_num

/-- Ordering invariant of the mock generation loop: with in-range draws and a
positive base price, every emitted candle satisfies `low ≤ open ≤ high`. -/
lemma mockAux_ordering (draws : ℕ → CandleDraw) (now : ℤ)
    (hr : ∀ j, DrawInRange (draws j)) :
    ∀ (count i : ℕ) (base : ℚ), 0 < base →
      ∀ c ∈ mockAux draws now i count base,
        c.low ≤ c.«open» ∧ c.«open» ≤ c.high := by
  intro count
  induction count with
  | zero => intro i base hb c hc; simp [mockAux] at hc
  | succ n ih =>
    intro i base hb c hc
    obtain ⟨hc1, hc2, hhf1, hhf2, hlf1, hlf2, hcf1, hcf2, hv1, hv2⟩ := hr i
    have hopos : 0 < base * (1 + (draws i).change) :=
      mul_pos hb (by linarith)
    rcases List.mem_cons.mp hc with rfl | htail
    · constructor
      · show fmt8 (base * (1 + (draws i).change) * (draws i).lf)
            ≤ fmt8 (base * (1 + (draws i).change))
        apply pyRound_mono
        calc base * (1 + (draws i).change) * (draws i).lf
            ≤ base * (1 + (draws i).change) * 1 := by
              exact mul_le_mul_of_nonneg_left (by linarith) hopos.le
          _ = base * (1 + (draws i).change) := mul_one _
      · show fmt8 (base * (1 + (draws i).change))
            ≤ fmt8 (base * (1 + (draws i).change) * (draws i).hf)
        apply pyRound_mono
        exact le_mul_of_one_le_right hopos.le (by linarith)
    · refine ih (i + 1) (mockNext (draws i) base) ?_ c htail
      have heq : mockNext (draws i) base
          = base * (1 + (draws i).change) * (1 + (draws i).cf) := by
        unfold mockNext; ring
      rw [heq]
      exact mul_pos hopos (by linarith)

/-- C8 counterexample (negation of the claim): there is no in-range draw
sequence under which a synthetic candle has `open > high` or `low > open` —
the ordering is forced by the draw ranges and positive base prices. -/
theorem C8_counterexample_no_violation :
    ¬ ∃ (draws : ℕ → CandleDraw) (now : ℤ) (sym : String),
        (∀ j, DrawInRange (draws j)) ∧
        ∃ c ∈ _generate_mock_data draws now sym,
          c.high < c.«open» ∨ c.«open» < c.low := by
  rintro ⟨draws, now, sym, hr, c, hc, hbad⟩
  have hord := mockAux_ordering draws now hr 200 0 (basePrices sym)
    (basePrices_pos sym) c hc
  rcases hbad with h | h
  · exact absurd hord.2 (not_le.mpr h)
  · exact absurd hord.1 (not_le.mpr h)

/-- C8 (amended): for every draw sequence within the stated ranges, every
synthetic candle satisfies `low ≤ open ≤ high` — the ordering IS guaranteed
by construction (the draw ranges force `high ≥ open · 1.001` and
`low ≤ open · 0.999` at positive prices); the ordering that is not
guaranteed is `close ≤ high`. -/
theorem C8_ordering_amended :
    ∀ (draws : ℕ → CandleDraw) (now : ℤ) (sym : String),
      (∀ j, DrawInRange (draws j)) →
      ∀ c ∈ _generate_mock_data draws now sym,
        c.low ≤ c.«open» ∧ c.«open» ≤ c.high :=
  fun draws now sym hr c hc =>
    mockAux_ordering draws now hr 200 0 (basePrices sym) (basePrices_pos sym) c hc

/-- Witness for C8 (amended) at the concrete constant draw stream and the
first generated candle. -/
theorem C8_ordering_amended_witness :
    firstC.low ≤ firstC.«open» ∧ firstC.«open» ≤ firstC.high :=
  C8_ordering_amended constDraws 0 ("BTCUSDT")
    (fun _ => ⟨by norm_num [constDraws, constDraw], by norm_num [constDraws, constDraw],
      by norm_num [constDraws, constDraw], by norm_num [constDraws, constDraw],
      by norm_num [constDraws, constDraw], by norm_num [constDraws, constDraw],
      by norm_num [constDraws, constDraw], by norm_num [constDraws, constDraw],
      by norm_num [constDraws, constDraw], by norm_num [constDraws, constDraw]⟩)
    firstC firstC_mem

/-! ## String-search lemmas for the extractor -/

/-- A list starts with itself. -/
lemma isPfxOf_self (p : List Char) : isPfxOf p p = true := by
  induction p with
  | nil => rfl
  | cons a as ih => simp [isPfxOf, ih]

/-- A list starts with its leading segment. -/
lemma isPfxOf_append (p r : List Char) : isPfxOf p (p ++ r) = true := by
  induction p with
  | nil => rfl
  | cons a as ih => simp [isPfxOf, ih]

/-- Transitivity of the leading-segment relation. -/
lemma isPfxOf_trans : ∀ {p q s : List Char},
    isPfxOf p q = true → isPfxOf q s = true → isPfxOf p s = true := by
  intro p
  induction p with
  | nil => intro q s _ _; rfl
  | cons a as ih =>
    intro q s hpq hqs
    cases q with
    | nil => exact absurd hpq (by simp [isPfxOf])
    | cons b bs =>
      cases s with
      | nil => exact absurd hqs (by simp [isPfxOf])
      | cons c cs =>
        simp only [isPfxOf, Bool.and_eq_true, beq_iff_eq] at hpq hqs ⊢
        exact ⟨hpq.1.trans hqs.1, ih hpq.2 hqs.2⟩

/-- A match at the very start is found at index 0. -/
lemma findSub_zero {p s : List Char} (h : isPfxOf p s = true) :
    findSub p s = some 0 := by
  cases s with
  | nil =>
    cases p with
    | nil => rfl
    | cons a as => exact absurd h (by simp [isPfxOf])
  | cons c rest => simp [findSub, h]

/-- Cons step of `findSub` when there is no match at the head. -/
lemma findSub_cons_of_neg {p : List Char} {c : Char} {s : List Char}
    (h : isPfxOf p (c :: s) = false) :
    findSub p (c :: s) = (findSub p s).map (· + 1) := by
  simp [findSub, h]

/-- Decomposition of an absent pattern over a cons. -/
lemma findSub_cons_none {p : List Char} {c : Char} {s : List Char}
    (h : findSub p (c :: s) = none) :
    isPfxOf p (c :: s) = false ∧ findSub p s = none := by
  by_cases hp : isPfxOf p (c :: s)
  · rw [findSub_zero hp] at h; cases h
  · refine ⟨by simpa using hp, ?_⟩
    rw [findSub_cons_of_neg (by simpa using hp)] at h
    exact Option.map_eq_none.mp h

/-- If a pattern is absent, every extension of that pattern is absent. -/
lemma findSub_none_mono {p q : List Char} (hpq : isPfxOf p q = true) :
    ∀ {s : List Char}, findSub p s = none → findSub q s = none := by
  intro s
  induction s with
  | nil =>
    intro h
    cases q with
    | nil =>
      cases p with
      | nil => cases h
      | cons a as => exact absurd hpq (by simp [isPfxOf])
    | cons b bs => rfl
  | cons c rest ih =>
    intro h
    obtain ⟨hp, hrest⟩ := findSub_cons_none h
    have hq : isPfxOf q (c :: rest) = false := by
      by_contra hq
      rw [isPfxOf_trans hpq (by simpa using hq)] at hp
      cases hp
    rw [findSub_cons_of_neg hq, ih hrest]
    rfl

/-- First occurrence of the plain fence in `s ++ c :: fenceBar` when `s` is
fence-free and `c` is not a backtick: right after `s` and the separator. -/
lemma findSub_sandwich (c : Char) (hc : (btick == c) = false) :
    ∀ s : List Char, findSub fenceBar s = none →
      findSub fenceBar (s ++ c :: fenceBar) = some (s.length + 1) := by
  intro s
  induction s with
  | nil =>
    intro _
    rw [List.nil_append,
      findSub_cons_of_neg (by simp [fenceBar, isPfxOf, hc]),
      findSub_zero (isPfxOf_self _)]
    rfl
  | cons d s' ih =>
    intro h
    obtain ⟨hp, hrest⟩ := findSub_cons_none h
    have hnp : isPfxOf fenceBar ((d :: s') ++ c :: fenceBar) = false := by
      cases s' with
      | nil => simp [fenceBar, isPfxOf, hc]
      | cons e s'' =>
        cases s'' with
        | nil => simp [fenceBar, isPfxOf, hc]
        | cons f s''' =>
          cases hbd : (btick == d) <;> cases hbe : (btick == e) <;>
            cases hbf : (btick == f) <;>
            simp_all [fenceBar, isPfxOf]
    rw [List.cons_append] at hnp ⊢
    rw [findSub_cons_of_neg hnp, ih hrest]
    simp

/-- The newline-suffixed fence marker never occurs in `s ++ c :: fenceBar`
when `s` is fence-free and `c` is not a backtick. -/
lemma findSub_barNl_none (c : Char) (hc : (btick == c) = false) :
    ∀ s : List Char, findSub fenceBar s = none →
      findSub fenceBarNl (s ++ c :: fenceBar) = none := by
  intro s
  induction s with
  | nil =>
    intro _
    rw [List.nil_append,
      findSub_cons_of_neg (by simp [fenceBarNl, fenceBar, isPfxOf, hc])]
    rfl
  | cons d s' ih =>
    intro h
    obtain ⟨hp, hrest⟩ := findSub_cons_none h
    have hnp : isPfxOf fenceBarNl ((d :: s') ++ c :: fenceBar) = false := by
      cases s' with
      | nil => simp [fenceBarNl, fenceBar, isPfxOf, hc]
      | cons e s'' =>
        cases s'' with
        | nil => simp [fenceBarNl, fenceBar, isPfxOf, hc]
        | cons f s''' =>
          cases hbd : (btick == d) <;> cases hbe : (btick == e) <;>
            cases hbf : (btick == f) <;>
            simp_all [fenceBarNl, fenceBar, isPfxOf]
    rw [List.cons_append] at hnp ⊢
    rw [findSub_cons_of_neg hnp, ih hrest]
    rfl

/-- A string equal to its own strip keeps its leading segment under
`dropWhile`. -/
lemma pyStrip_fixed_dropWhile {s : List Char} (h : pyStrip s = s) :
    s.dropWhile isPyWs = s := by
  have h1 : (dropTrailWs (s.dropWhile isPyWs)).length ≤ (s.dropWhile isPyWs).length := by
    unfold dropTrailWs
    simpa using (List.dropWhile_sublist (l := (s.dropWhile isPyWs).reverse) isPyWs).length_le
  have h2 : (s.dropWhile isPyWs).length ≤ s.length :=
    (List.dropWhile_sublist _).length_le
  have h3 : (pyStrip s).length = s.length := by rw [h]
  unfold pyStrip at h3
  have h4 : (s.dropWhile isPyWs).length = s.length := by omega
  exact List.IsSuffix.eq_of_length (List.dropWhile_suffix _) h4

/-- A string equal to its own strip is unchanged by trailing-strip. -/
lemma pyStrip_fixed_dropTrail {s : List Char} (h : pyStrip s = s) :
    dropTrailWs s = s := by
  have h1 := pyStrip_fixed_dropWhile h
  unfold pyStrip at h
  rw [h1] at h
  exact h

/-- Trailing-strip absorbs one padded trailing space. -/
lemma dropTrailWs_pad (s : List Char) :
    dropTrailWs (s ++ [' ']) = dropTrailWs s := by
  unfold dropTrailWs
  rw [List.reverse_append]
  rfl

/-- Stripping one space of padding on each side of a stripped string gives it
back. -/
lemma pyStrip_pad {s : List Char} (h : pyStrip s = s) :
    pyStrip (' ' :: (s ++ [' '])) = s := by
  cases s with
  | nil => rfl
  | cons a s' =>
    have hdw := pyStrip_fixed_dropWhile h
    have ha : isPyWs a = false := by
      by_contra hTrue
      rw [List.dropWhile_cons, if_pos (by simpa using hTrue)] at hdw
      have hle := (List.dropWhile_sublist (l := s') isPyWs).length_le
      have := congrArg List.length hdw
      simp at this
      omega
    unfold pyStrip
    rw [List.dropWhile_cons, if_pos (by rfl), List.cons_append,
      List.dropWhile_cons, if_neg (by simp [ha]), ← List.cons_append,
      dropTrailWs_pad]
    exact pyStrip_fixed_dropTrail h

/-- Method-1 content of a space-padded fenced wrapping of a fence-free,
stripped string is the string itself. -/
def fenceWrap (s : List Char) : List Char :=
  fenceTag ++ (' ' :: s ++ ' ' :: fenceBar)

/-- The space character is not a backtick. -/
lemma btick_ne_space : (btick == ' ') = false := by decide

/-- Computation of the fenced-block content of `fenceWrap s`. -/
lemma fencedContent_fenceWrap {s : List Char}
    (hbar : findSub fenceBar s = none) (hstrip : pyStrip s = s) :
    fencedContent (fenceWrap s) = s := by
  have hns : findSub fenceBar (' ' :: s) = none := by
    rw [findSub_cons_of_neg (by simp [fenceBar, isPfxOf, btick_ne_space]), hbar]
    rfl
  have hfind0 : findSub fenceTag (fenceWrap s) = some 0 :=
    findSub_zero (isPfxOf_append _ _)
  have hdrop : (fenceWrap s).drop 7 = ' ' :: s ++ ' ' :: fenceBar := by
    show (fenceTag ++ (' ' :: s ++ ' ' :: fenceBar)).drop 7 = _
    rw [show (7 : ℕ) = fenceTag.length from rfl, List.drop_left]
  have hsw : findSub fenceBar (' ' :: s ++ ' ' :: fenceBar) = some (s.length + 2) := by
    have := findSub_sandwich ' ' btick_ne_space (' ' :: s) hns
    simpa using this
  have hnl : findSub fenceBarNl (' ' :: s ++ ' ' :: fenceBar) = none :=
    findSub_barNl_none ' ' btick_ne_space (' ' :: s) hns
  have hlen : (' ' :: s ++ ' ' :: fenceBar).length = s.length + 5 := by
    simp [fenceBar]
  have hend : endIdxOf (' ' :: s ++ ' ' :: fenceBar) = s.length + 2 := by
    simp only [endIdxOf, hsw, hnl, hlen]
    rw [min_eq_right (by omega)]
  have htake : (' ' :: s ++ ' ' :: fenceBar).take (s.length + 2)
      = ' ' :: (s ++ [' ']) := by
    have h2 : (s ++ ' ' :: fenceBar).take (s.length + 1) = s ++ [' '] := by
      rw [show (' ' :: fenceBar : List Char) = [' '] ++ fenceBar from rfl,
        ← List.append_assoc]
      exact List.take_left' (by simp)
    calc (' ' :: s ++ ' ' :: fenceBar).take (s.length + 2)
        = ' ' :: (s ++ ' ' :: fenceBar).take (s.length + 1) := rfl
      _ = ' ' :: (s ++ [' ']) := by rw [h2]
  simp only [fencedContent, hfind0, Option.getD_some, hdrop, hend, htake]
  exact pyStrip_pad hstrip

/-! ## C4: fenced extraction vs raw extraction -/

/-- C4 (amended): for every JSON object `o` and stripped serialization `s`
of it (any string the parser maps to `o`) that contains no triple-backtick
substring and whose naive brace scan spans exactly the whole string, the
extractor yields `o` both on the fenced wrapping and on the raw string. -/
theorem C4_fence_agreement_amended :
    ∀ (o : Json) (s : List Char),
      json_loads s = some o →
      findSub fenceBar s = none →
      braceSlice s = some s →
      pyStrip s = s →
      _extract_json_from_response (fenceWrap s) = some o ∧
      _extract_json_from_response s = some o := by
  intro o s hload hbar hbrace hstrip
  constructor
  · have hfind0 : findSub fenceTag (fenceWrap s) = some 0 :=
      findSub_zero (isPfxOf_append _ _)
    unfold _extract_json_from_response
    rw [hfind0, fencedContent_fenceWrap hbar hstrip]
    exact hload
  · have hTagNone : findSub fenceTag s = none :=
      findSub_none_mono (isPfxOf_append fenceBar (("json").toList)) hbar
    unfold _extract_json_from_response
    rw [hTagNone, hbrace]
    exact hload

/-- Serialization of the object `\x7b"a": "` ``` `"\x7d`, whose string value
holds a triple backtick. -/
def sCx : List Char := ("\x7b\"a\": \"```\"\x7d").toList

/-- The parsed form of `sCx`. -/
def oCx : Json := .obj [(['a'], .str [btick, btick, btick])]

/-- C4 counterexample: for the object whose string value contains a triple
backtick, the fenced wrapping extracts to `None` (the inner fence truncates
the block) while the raw string extracts to the object, so the two results
differ. -/
theorem C4_counterexample_backtick_value :
    _extract_json_from_response (fenceWrap sCx) ≠ _extract_json_from_response sCx := by
  have h1 : _extract_json_from_response (fenceWrap sCx) = none := rfl
  have h2 : _extract_json_from_response sCx = some oCx := rfl
  rw [h1, h2]
  exact fun h => Option.noConfusion h

/-- Backtick-free serialization used in the C4 witness. -/
def sW4 : List Char := ("\x7b\"pair\": \"BTC\"\x7d").toList

/-- The parsed form of `sW4`. -/
def oW4 : Json := .obj [(("pair").toList, .str (("BTC").toList))]

/-- Witness for C4 (amended) at a concrete backtick-free object. -/
theorem C4_fence_agreement_amended_witness :
    _extract_json_from_response (fenceWrap sW4) = some oW4 ∧
    _extract_json_from_response sW4 = some oW4 :=
  C4_fence_agreement_amended oW4 sW4 rfl rfl rfl rfl

/-! ## C10: a failing fenced parse aborts the whole extraction -/

/-- C10: whenever the opening fence marker occurs in the response and the
fenced content fails to parse, the extractor returns `None` — the
`JSONDecodeError` raised inside method 1 is caught by the single outer
handler, so methods 2 and 3 are never attempted even if valid JSON appears
elsewhere in the text. -/
theorem C10_fenced_parse_failure_aborts :
    ∀ t : List Char, (findSub fenceTag t).isSome = true →
      json_loads (fencedContent t) = none →
      _extract_json_from_response t = none := by
  intro t hfind hloads
  obtain ⟨i, hi⟩ := Option.isSome_iff_exists.mp hfind
  unfold _extract_json_from_response
  rw [hi]
  exact hloads

/-- Response whose fenced block is not JSON while a valid JSON object
follows the closing fence. -/
def tCx10 : List Char := ("```json oops``` \x7b\"a\": \"b\"\x7d").toList

/-- Witness for C10: the extractor returns `None` on `tCx10` although the
brace-scanning method would have found a valid object after the fence. -/
theorem C10_fenced_parse_failure_aborts_witness :
    _extract_json_from_response tCx10 = none ∧
    json_loads ((braceSlice tCx10).getD []) = some (.obj [(['a'], .str ['b'])]) :=
  ⟨C10_fenced_parse_failure_aborts tCx10 rfl rfl, rfl⟩

end CryptoBot
